import Mathlib

/-!
Verification of the sql-builder library: a shallow embedding of the
placeholder-binding engine (`bind.rs`), the condition builder
(`where-builder.rs`) and the clause assembler (`lib.rs`), with theorems
settling the specification claims about them.

Strings are modelled as `List Char` for the character-scanning binders and
as Lean `String` for the clause assembler.  Rust `usize` arithmetic is
modelled as `Nat` with explicit wrapping modulo `2 ^ 64` at the points
where the source can overflow (release-build semantics); a separate
`Checked` variant models the overflow-checked (debug) build, returning
`none` where that build panics.
-/

set_option maxHeartbeats 1000000

namespace SqlBuilderVerif

/-- The modulus of Rust `usize` arithmetic on a 64-bit target. -/
def USIZE : Nat := 2 ^ 64

/-- Embedding of Rust `ch.to_digit(10)`. -/
def toDigit (c : Char) : Option Nat :=
  if c.isDigit then some (c.toNat - 48) else none

/-! ### `binds` — positional cyclic binder (bind.rs lines 385-398)

The source indexes `args[offset]` (a panic when out of bounds) and steps
`offset = (offset + 1) % len`; the embedding returns `none` exactly where
the source panics. -/

/-- Loop of `binds` from the source: scan characters, replacing each `?`
with `args[offset]` and cycling the offset. -/
def bindsGo (args : List (List Char)) : List Char → Nat → Option (List Char)
  | [], _ => some []
  | ch :: rest, off =>
    if ch = '?' then
      match args.get? off with
      | none => none
      | some v => (fun t => v ++ t) <$> bindsGo args rest ((off + 1) % args.length)
    else
      (fun t => ch :: t) <$> bindsGo args rest off

/-- `binds` from the source, starting at offset 0. -/
def binds (args : List (List Char)) (s : List Char) : Option (List Char) :=
  bindsGo args s 0

/-- Modelled from the spec: the i-th `?` (0-indexed) is replaced by
`values[i mod n]`; every other character passes through. -/
def specBindsGo (args : List (List Char)) : List Char → Nat → List Char
  | [], _ => []
  | ch :: rest, i =>
    if ch = '?' then
      args.getD (i % args.length) [] ++ specBindsGo args rest (i + 1)
    else
      ch :: specBindsGo args rest i

/-- The spec-described positional cyclic replacement. -/
def specBinds (args : List (List Char)) (s : List Char) : List Char :=
  specBindsGo args s 0

/-! ### `bind_nums` — numbered binder state machine (bind.rs lines 479-523)

State: `waitDigit : Bool` (a `$` has been read) and `num : Nat` (the
accumulated decimal value, a `usize`).  The release build wraps both the
accumulation `num * 10 + d` and the subtraction `num - 1`; the latter is
written `(num + (USIZE - 1)) % USIZE`, which equals the two's-complement
wraparound of `num - 1` for `num < USIZE`. -/

/-- Loop of `bind_nums` from the source (release semantics). -/
def bindNumsGo (args : List (List Char)) : List Char → Bool → Nat → List Char
  | [], waitDigit, num =>
    if waitDigit ∧ 0 < num then
      if num - 1 < args.length then args.getD (num - 1) [] else []
    else []
  | ch :: rest, waitDigit, num =>
    if ch = '$' then
      if waitDigit then
        if 0 < num then
          (if num - 1 < args.length then args.getD (num - 1) [] else []) ++
            bindNumsGo args rest true 0
        else
          '$' :: bindNumsGo args rest false num
      else
        bindNumsGo args rest true num
    else if waitDigit then
      match toDigit ch with
      | some d => bindNumsGo args rest true ((num * 10 + d) % USIZE)
      | none =>
        (if (num + (USIZE - 1)) % USIZE < args.length then
            args.getD ((num + (USIZE - 1)) % USIZE) []
          else []) ++
          ch :: bindNumsGo args rest false 0
    else
      ch :: bindNumsGo args rest false num

/-- `bind_nums` from the source: start in the Normal state with `num = 0`. -/
def bind_nums (args : List (List Char)) (s : List Char) : List Char :=
  bindNumsGo args s false 0

/-- States of the spec's two-state machine for `bind_nums`. -/
inductive NumState
  | normal
  | awaiting (n : Nat)

/-- Modelled from the spec (section 4.1 transition table): Normal /
AwaitingDigits(`usize` accumulator); `$` in Normal enters AwaitingDigits(0);
a digit accumulates; `$` in AwaitingDigits(0) emits a literal `$`;
`$` in AwaitingDigits(n>0) emits `values[n-1]` when in range (nothing
otherwise) and returns to AwaitingDigits(0); any other non-digit emits
`values[n-1]` if `n > 0` and in range, then the character; end of input in
AwaitingDigits(n>0) emits `values[n-1]` when in range. -/
def specBindNumsGo (args : List (List Char)) : List Char → NumState → List Char
  | [], .normal => []
  | [], .awaiting n =>
    if 0 < n ∧ n - 1 < args.length then args.getD (n - 1) [] else []
  | ch :: rest, .normal =>
    if ch = '$' then specBindNumsGo args rest (.awaiting 0)
    else ch :: specBindNumsGo args rest .normal
  | ch :: rest, .awaiting n =>
    if ch = '$' then
      if 0 < n then
        (if n - 1 < args.length then args.getD (n - 1) [] else []) ++
          specBindNumsGo args rest (.awaiting 0)
      else
        '$' :: specBindNumsGo args rest .normal
    else
      match toDigit ch with
      | some d => specBindNumsGo args rest (.awaiting ((n * 10 + d) % USIZE))
      | none =>
        (if 0 < n ∧ n - 1 < args.length then args.getD (n - 1) [] else []) ++
          ch :: specBindNumsGo args rest .normal

/-- The spec's `bind_nums` state machine, started in Normal. -/
def specBindNums (args : List (List Char)) (s : List Char) : List Char :=
  specBindNumsGo args s .normal

/-- Loop of `bind_nums` under the overflow-checked (debug) build: the two
arithmetic operations on the `usize` accumulator return `none` (panic)
on overflow.  In particular `num - 1` with `num = 0` is `none`. -/
def bindNumsCheckedGo (args : List (List Char)) :
    List Char → Bool → Nat → Option (List Char)
  | [], waitDigit, num =>
    some (if waitDigit ∧ 0 < num then
      if num - 1 < args.length then args.getD (num - 1) [] else []
    else [])
  | ch :: rest, waitDigit, num =>
    if ch = '$' then
      if waitDigit then
        if 0 < num then
          (fun t => (if num - 1 < args.length then args.getD (num - 1) [] else []) ++ t) <$>
            bindNumsCheckedGo args rest true 0
        else
          (fun t => '$' :: t) <$> bindNumsCheckedGo args rest false num
      else
        bindNumsCheckedGo args rest true num
    else if waitDigit then
      match toDigit ch with
      | some d =>
        if num * 10 + d < USIZE then bindNumsCheckedGo args rest true (num * 10 + d)
        else none
      | none =>
        if num = 0 then none
        else
          (fun t => (if num - 1 < args.length then args.getD (num - 1) [] else []) ++
            ch :: t) <$> bindNumsCheckedGo args rest false 0
    else
      (fun t => ch :: t) <$> bindNumsCheckedGo args rest false num

/-- `bind_nums` under the overflow-checked (debug) build. -/
def bindNumsChecked (args : List (List Char)) (s : List Char) : Option (List Char) :=
  bindNumsCheckedGo args s false 0

/-! ### `bind_num` — replace every occurrence of `$n` (bind.rs lines 438-441)

Rust `format!("${}", num)` renders the number in decimal;
`String::replace` replaces every leftmost non-overlapping occurrence. -/

/-- Decimal digits of `n`, least fuel first (embedding of `format!("{}", n)`).
The accumulator variant is structurally recursive on fuel so that concrete
instances reduce. -/
def decCharsCore : Nat → Nat → List Char → List Char
  | 0, _, acc => acc
  | fuel + 1, n, acc =>
    let c := Char.ofNat (48 + n % 10)
    if n < 10 then c :: acc else decCharsCore fuel (n / 10) (c :: acc)

/-- Decimal representation of `n` as characters. -/
def decChars (n : Nat) : List Char :=
  decCharsCore (n + 1) n []

/-- Embedding of Rust `String::replace`: replace every leftmost
non-overlapping occurrence of the pattern `p :: ps` with `rep`.  The
pattern is passed with an exposed head so that it is never empty. -/
def replaceList (p : Char) (ps rep : List Char) : List Char → List Char
  | [] => []
  | c :: rest =>
    if (p :: ps).isPrefixOf (c :: rest) then
      rep ++ replaceList p ps rep (rest.drop ps.length)
    else
      c :: replaceList p ps rep rest
  termination_by s => s.length
  decreasing_by
    · simp only [List.length_cons, List.length_drop]
      omega
    · simp

/-- `bind_num` from the source: replace every occurrence of `$n`. -/
def bind_num (num : Nat) (value : List Char) (s : List Char) : List Char :=
  replaceList '$' (decChars num) value s

/-- Side condition of the amended order-independence claim: the rendered
value is nonempty, contains no `$`, and does not start with a digit. -/
def goodRep (a : List Char) : Bool :=
  (!a.isEmpty) && (!a.contains '$') &&
    (match a with
     | [] => false
     | c :: _ => !c.isDigit)

/-! ### `bind_names` — named binder state machine (bind.rs lines 573-607)

The map is embedded as a lookup function (the source uses a `HashMap`). -/

/-- Loop of `bind_names` from the source.  State: `waitColon : Bool`
(inside a `:key:` span) and the accumulated key. -/
def bindNamesGo (names : List Char → Option (List Char)) :
    List Char → Bool → List Char → List Char
  | [], waitColon, key => if waitColon then ';' :: key else []
  | ch :: rest, waitColon, key =>
    if ch = ':' then
      if waitColon then
        if key = [] then ':' :: bindNamesGo names rest false key
        else
          (match names key with
           | some v => v
           | none => "NULL".data) ++ bindNamesGo names rest false []
      else
        bindNamesGo names rest true key
    else if waitColon then
      bindNamesGo names rest true (key ++ [ch])
    else
      ch :: bindNamesGo names rest false key

/-- `bind_names` from the source: start outside a key with an empty buffer. -/
def bind_names (names : List Char → Option (List Char)) (s : List Char) : List Char :=
  bindNamesGo names s false []

/-! ### `Where` — the condition builder (where-builder.rs) -/

/-- The error enumeration from `error.rs`. -/
inductive SqlBuilderError
  | NoTableName
  | NoValues
  | NoSetFields
  | NoWhereCond
  | NoWhereField
  | NoWhereValue (field : String)
  | NoWhereList (field : String)
  | NoWhereQuery (field : String)
  deriving DecidableEq

/-- The `Where` struct: accumulated text, pending relational-operator
prefix (`prefix` in the source; renamed, as that word is reserved here),
sticky error, and the bracket-wrapping flag for `and`. -/
structure Where where
  text : String := ""
  pfx : Option String := none
  error : Option SqlBuilderError := none
  was_and : Bool := false
  deriving DecidableEq

/-- `Where::new`: fails with NoWhereField on an empty seed. -/
def Where.new (smth : String) : Where :=
  if smth = "" then { error := some .NoWhereField } else { text := smth }

/-- `Where::empty`. -/
def Where.empty : Where := {}

/-- `Where::in_brackets`: wrap the text in parentheses. -/
def Where.in_brackets (w : Where) : Where :=
  if w.text = "" then { w with error := some .NoWhereField }
  else { w with text := "(" ++ w.text ++ ")" }

/-- `Where::not`: prepend `NOT `. -/
def Where.not (w : Where) : Where :=
  if w.text = "" then { w with error := some .NoWhereField }
  else { w with text := "NOT " ++ w.text }

/-- `Where::and`: bracket the current text once (tracked by `was_and`),
then append ` AND (other)`. -/
def Where.and (w : Where) (smth : String) : Where :=
  if w.text = "" then { w with error := some .NoWhereField }
  else if smth = "" then { w with error := some (.NoWhereValue w.text) }
  else
    { w with
      text := (if w.was_and then w.text else "(" ++ w.text ++ ")") ++
        " AND (" ++ smth ++ ")"
      was_and := true }

/-- `Where::or`: append ` OR other` with no bracketing. -/
def Where.or (w : Where) (smth : String) : Where :=
  if w.text = "" then { w with error := some .NoWhereField }
  else if smth = "" then { w with error := some (.NoWhereValue w.text) }
  else { w with text := w.text ++ " OR " ++ smth }

/-- `Where::eq`: append ` = value`, inserting any pending prefix first. -/
def Where.eq (w : Where) (smth : String) : Where :=
  if smth = "" then { w with error := some (.NoWhereValue w.text) }
  else
    match w.pfx with
    | some p => { w with text := w.text ++ " " ++ p ++ " = " ++ smth, pfx := none }
    | none => { w with text := w.text ++ " = " ++ smth }

/-- `Where::ne`: append ` <> value`, inserting any pending prefix first. -/
def Where.ne (w : Where) (smth : String) : Where :=
  if smth = "" then { w with error := some (.NoWhereValue w.text) }
  else
    match w.pfx with
    | some p => { w with text := w.text ++ " " ++ p ++ " <> " ++ smth, pfx := none }
    | none => { w with text := w.text ++ " <> " ++ smth }

/-- `Where::build`: surface the stored error, else the accumulated text. -/
def Where.build (w : Where) : Except SqlBuilderError String :=
  match w.error with
  | some e => .error e
  | none => .ok w.text

/-! ### `SqlBuilder` — the clause assembler (lib.rs) -/

/-- The statement kinds. -/
inductive Statement
  | SelectFrom
  | SelectValues
  | UpdateTable
  | InsertInto
  | DeleteFrom
  deriving DecidableEq

/-- Operator for JOIN. -/
inductive JoinOperator
  | Join
  | LeftJoin
  | LeftOuterJoin
  | RightJoin
  | RightOuterJoin
  | InnerJoin
  | CrossJoin
  deriving DecidableEq

/-- INSERT values. -/
inductive Values
  | Empty
  | List (groups : List String)
  | Select (query : String)
  deriving DecidableEq

/-- The `SqlBuilder` struct. -/
structure SqlBuilder where
  statement : Statement
  table : String
  join_natural : Bool
  join_operator : JoinOperator
  joins : List String
  distinct : Bool
  fields : List String
  sets : List String
  values : Values
  returning : Option String
  group_by : List String
  having : Option String
  unions : String
  wheres : List String
  order_by : List String
  limit : Option String
  offset : Option String
  deriving DecidableEq

/-- `SqlBuilder::default`. -/
def SqlBuilder.default : SqlBuilder where
  statement := .SelectFrom
  table := ""
  join_natural := false
  join_operator := .Join
  joins := []
  distinct := false
  fields := []
  sets := []
  values := .Empty
  returning := none
  group_by := []
  having := none
  unions := ""
  wheres := []
  order_by := []
  limit := none
  offset := none

/-- `SqlBuilder::select_from`. -/
def SqlBuilder.select_from (table : String) : SqlBuilder :=
  { SqlBuilder.default with table := table }

/-- `SqlBuilder::insert_into`. -/
def SqlBuilder.insert_into (table : String) : SqlBuilder :=
  { SqlBuilder.default with statement := .InsertInto, table := table }

/-- `SqlBuilder::update_table`. -/
def SqlBuilder.update_table (table : String) : SqlBuilder :=
  { SqlBuilder.default with statement := .UpdateTable, table := table }

/-- `SqlBuilder::delete_from`. -/
def SqlBuilder.delete_from (table : String) : SqlBuilder :=
  { SqlBuilder.default with statement := .DeleteFrom, table := table }

/-- `SqlBuilder::field`: push one field. -/
def SqlBuilder.field (b : SqlBuilder) (f : String) : SqlBuilder :=
  { b with fields := b.fields ++ [f] }

/-- `SqlBuilder::and_where`: push a new WHERE condition. -/
def SqlBuilder.and_where (b : SqlBuilder) (cond : String) : SqlBuilder :=
  { b with wheres := b.wheres ++ [cond] }

/-- `SqlBuilder::or_where`: append ` OR cond` to the last accumulated
condition, or push `cond` when none exists yet. -/
def SqlBuilder.or_where (b : SqlBuilder) (cond : String) : SqlBuilder :=
  match b.wheres.getLast? with
  | none => { b with wheres := [cond] }
  | some last => { b with wheres := b.wheres.dropLast ++ [last ++ " OR " ++ cond] }

/-- `SqlBuilder::make_wheres` (lib.rs lines 3261-3273). -/
def SqlBuilder.make_wheres (wheres : List String) : String :=
  match wheres with
  | [] => ""
  | [w] => " WHERE " ++ w
  | ws => " WHERE " ++ String.intercalate " AND " (ws.map (fun w => "(" ++ w ++ ")"))

/-- `SqlBuilder::query` (lib.rs lines 3065-3131): always `Ok`. -/
def SqlBuilder.query (b : SqlBuilder) : Except SqlBuilderError String :=
  let distinct := if b.distinct then " DISTINCT" else ""
  let fields := if b.fields.isEmpty then "*" else String.intercalate ", " b.fields
  let joins := if b.joins.isEmpty then "" else " " ++ String.intercalate " " b.joins
  let group_by :=
    if b.group_by.isEmpty then ""
    else
      let having :=
        match b.having with
        | some h => " HAVING " ++ h
        | none => ""
      " GROUP BY " ++ String.intercalate ", " b.group_by ++ having
  let wheres := SqlBuilder.make_wheres b.wheres
  let order_by :=
    if b.order_by.isEmpty || !(b.unions = "") then ""
    else " ORDER BY " ++ String.intercalate ", " b.order_by
  let limit :=
    match b.limit with
    | some l => " LIMIT " ++ l
    | none => ""
  let offset :=
    match b.offset with
    | some o => " OFFSET " ++ o
    | none => ""
  .ok ("SELECT" ++ distinct ++ " " ++ fields ++ " FROM " ++ b.table ++ joins ++
    wheres ++ group_by ++ b.unions ++ order_by ++ limit ++ offset)

/-- `SqlBuilder::query_values` (lib.rs lines 3147-3154): always `Ok`. -/
def SqlBuilder.query_values (b : SqlBuilder) : Except SqlBuilderError String :=
  .ok ("SELECT " ++ String.intercalate ", " b.fields)

/-- `SqlBuilder::subquery`: wrap the rendered query in parentheses. -/
def SqlBuilder.subquery (b : SqlBuilder) : Except SqlBuilderError String :=
  match b.query with
  | .ok t => .ok ("(" ++ t ++ ")")
  | .error e => .error e

/-- `SqlBuilder::subquery_as`: parenthesized query with `AS name`. -/
def SqlBuilder.subquery_as (b : SqlBuilder) (name : String) :
    Except SqlBuilderError String :=
  match b.query with
  | .ok t => .ok ("(" ++ t ++ ") AS " ++ name)
  | .error e => .error e

/-- `SqlBuilder::sql_select`: table check, then the query plus `;`. -/
def SqlBuilder.sql_select (b : SqlBuilder) : Except SqlBuilderError String :=
  if b.table = "" then .error .NoTableName
  else
    match b.query with
    | .ok t => .ok (t ++ ";")
    | .error e => .error e

/-- `SqlBuilder::sql_select_values`: field check, then the values query. -/
def SqlBuilder.sql_select_values (b : SqlBuilder) : Except SqlBuilderError String :=
  if b.fields.isEmpty then .error .NoValues
  else
    match b.query_values with
    | .ok t => .ok (t ++ ";")
    | .error e => .error e

/-- `SqlBuilder::sql_insert` (lib.rs lines 3157-3205). -/
def SqlBuilder.sql_insert (b : SqlBuilder) : Except SqlBuilderError String :=
  if b.table = "" then .error .NoTableName
  else
    let fields := String.intercalate ", " b.fields
    match b.values with
    | .Empty => .error .NoValues
    | .List vs =>
      if vs.isEmpty then .error .NoValues
      else
        let returning :=
          match b.returning with
          | some r => " RETURNING " ++ r
          | none => ""
        .ok ("INSERT INTO " ++ b.table ++ " (" ++ fields ++ ") VALUES " ++
          String.intercalate ", " vs ++ returning ++ ";")
    | .Select q =>
      .ok ("INSERT INTO " ++ b.table ++ " (" ++ fields ++ ") " ++ q ++ ";")

/-- `SqlBuilder::sql_update` (lib.rs lines 3208-3239). -/
def SqlBuilder.sql_update (b : SqlBuilder) : Except SqlBuilderError String :=
  if b.table = "" then .error .NoTableName
  else if b.sets.isEmpty then .error .NoSetFields
  else
    let returning :=
      match b.returning with
      | some r => " RETURNING " ++ r
      | none => ""
    .ok ("UPDATE " ++ b.table ++ " SET " ++ String.intercalate ", " b.sets ++
      SqlBuilder.make_wheres b.wheres ++ returning ++ ";")

/-- `SqlBuilder::sql_delete`. -/
def SqlBuilder.sql_delete (b : SqlBuilder) : Except SqlBuilderError String :=
  if b.table = "" then .error .NoTableName
  else .ok ("DELETE FROM " ++ b.table ++ SqlBuilder.make_wheres b.wheres ++ ";")

/-- `SqlBuilder::sql`: dispatch on the statement kind. -/
def SqlBuilder.sql (b : SqlBuilder) : Except SqlBuilderError String :=
  match b.statement with
  | .SelectFrom => b.sql_select
  | .SelectValues => b.sql_select_values
  | .UpdateTable => b.sql_update
  | .InsertInto => b.sql_insert
  | .DeleteFrom => b.sql_delete

/-! ## Theorems -/

/-- C7: the `Where` combinators produce exactly the spec's strings:
`new "abc" |> eq 10` gives `abc = 10`; `.and 20` bracket-wraps exactly once
(a second `.and` does not re-wrap); `.or 20` adds no bracketing; and
`in_brackets` then `not` gives `NOT (abc = 10)`. -/
theorem where_concrete_strings :
    ((Where.new "abc").eq "10").text = "abc = 10" ∧
    (((Where.new "abc").eq "10").and "20").text = "(abc = 10) AND (20)" ∧
    ((((Where.new "abc").eq "10").and "20").and "30").text =
      "(abc = 10) AND (20) AND (30)" ∧
    (((Where.new "abc").eq "10").or "20").text = "abc = 10 OR 20" ∧
    ((((Where.new "abc").eq "10").in_brackets).not).text = "NOT (abc = 10)" := by
  decide

/-- C10: the renderers `query`, `query_values`, `subquery` and
`subquery_as` always return a successful string on every builder state;
the typed validation happens only in `sql()`: `select_from("").query()`
succeeds while `select_from("").sql()` fails with NoTableName. -/
theorem renderers_never_fail :
    (∀ b : SqlBuilder, ∃ s, b.query = .ok s) ∧
    (∀ b : SqlBuilder, ∃ s, b.query_values = .ok s) ∧
    (∀ b : SqlBuilder, ∃ s, b.subquery = .ok s) ∧
    (∀ (b : SqlBuilder) (n : String), ∃ s, b.subquery_as n = .ok s) ∧
    (∃ s, (SqlBuilder.select_from "").query = .ok s) ∧
    (SqlBuilder.select_from "").sql = .error .NoTableName := by
  refine ⟨fun b => ⟨_, rfl⟩, fun b => ⟨_, rfl⟩, fun b => ⟨_, rfl⟩,
    fun b n => ⟨_, rfl⟩, ⟨_, rfl⟩, rfl⟩

/-- C8: `sql()` validates exactly at the boundary: a SelectFrom builder
with an empty table fails with NoTableName; an InsertInto builder with a
nonempty table whose values are Empty or an empty List fails with
NoValues (even when fields were added); an UpdateTable builder with a
nonempty table and an empty set list fails with NoSetFields; the three
reference scenarios from the spec are instances. -/
theorem sql_boundary_errors :
    (∀ b : SqlBuilder, b.statement = .SelectFrom → b.table = "" →
      b.sql = .error .NoTableName) ∧
    (∀ b : SqlBuilder, b.statement = .InsertInto → b.table ≠ "" →
      (b.values = .Empty ∨ b.values = .List []) → b.sql = .error .NoValues) ∧
    (∀ b : SqlBuilder, b.statement = .UpdateTable → b.table ≠ "" →
      b.sets = [] → b.sql = .error .NoSetFields) ∧
    ((SqlBuilder.insert_into "books").field "t").sql = .error .NoValues ∧
    (SqlBuilder.select_from "").sql = .error .NoTableName ∧
    (SqlBuilder.update_table "books").sql = .error .NoSetFields := by
  refine ⟨?_, ?_, ?_, rfl, rfl, rfl⟩
  · intro b h1 h2
    simp [SqlBuilder.sql, h1, SqlBuilder.sql_select, h2]
  · intro b h1 h2 h3
    rcases h3 with h3 | h3 <;>
      simp [SqlBuilder.sql, h1, SqlBuilder.sql_insert, h2, h3]
  · intro b h1 h2 h3
    simp [SqlBuilder.sql, h1, SqlBuilder.sql_update, h2, h3]

/-- C8 witness: the three universal parts applied at concrete builders. -/
theorem sql_boundary_errors_witness :
    (SqlBuilder.select_from "").sql = .error .NoTableName ∧
    ((SqlBuilder.insert_into "books").field "t").sql = .error .NoValues ∧
    (SqlBuilder.update_table "books").sql = .error .NoSetFields :=
  ⟨sql_boundary_errors.1 (SqlBuilder.select_from "") rfl rfl,
   sql_boundary_errors.2.1 ((SqlBuilder.insert_into "books").field "t")
     rfl (by decide) (Or.inl rfl),
   sql_boundary_errors.2.2.1 (SqlBuilder.update_table "books")
     rfl (by decide) rfl⟩

/-- C9: the shared WHERE-clause rendering: empty for zero conditions,
` WHERE cond` for one, ` WHERE (c1) AND (c2) AND ...` (each condition
individually parenthesized) for two or more, whatever text the conditions
hold; `or_where` appends ` OR cond` to the last accumulated condition
(pushing a first one when none exists), so an `OR`-chain stays inside one
parenthesized group. -/
theorem make_wheres_rendering :
    (SqlBuilder.make_wheres [] = "") ∧
    (∀ c, SqlBuilder.make_wheres [c] = " WHERE " ++ c) ∧
    (∀ c₁ c₂ cs, SqlBuilder.make_wheres (c₁ :: c₂ :: cs) =
      " WHERE " ++ String.intercalate " AND "
        ((c₁ :: c₂ :: cs).map (fun w => "(" ++ w ++ ")"))) ∧
    (∀ (b : SqlBuilder) c, b.wheres = [] → (b.or_where c).wheres = [c]) ∧
    (∀ (b : SqlBuilder) c last, b.wheres.getLast? = some last →
      (b.or_where c).wheres = b.wheres.dropLast ++ [last ++ " OR " ++ c]) ∧
    (∀ (b : SqlBuilder) c₁ c₂ c₃, b.wheres = [] →
      (((b.and_where c₁).and_where c₂).or_where c₃).wheres =
        [c₁, c₂ ++ " OR " ++ c₃] ∧
      SqlBuilder.make_wheres ((((b.and_where c₁).and_where c₂).or_where c₃).wheres) =
        " WHERE (" ++ c₁ ++ ") AND (" ++ c₂ ++ " OR " ++ c₃ ++ ")") := by
  refine ⟨rfl, fun c => rfl, fun c₁ c₂ cs => rfl, ?_, ?_, ?_⟩
  · intro b c h
    simp [SqlBuilder.or_where, h]
  · intro b c last h
    simp [SqlBuilder.or_where, h]
  · intro b c₁ c₂ c₃ h
    have hw : (((b.and_where c₁).and_where c₂).or_where c₃).wheres =
        [c₁, c₂ ++ " OR " ++ c₃] := by
      simp [SqlBuilder.and_where, SqlBuilder.or_where, h]
    refine ⟨hw, ?_⟩
    rw [hw]
    apply String.ext
    simp [SqlBuilder.make_wheres, String.intercalate, String.intercalate.go,
      String.data_append]

/-- The loop of `binds` at offset `i % len` computes the spec's cyclic
replacement counting occurrences from `i`. -/
theorem bindsGo_mod (args : List (List Char)) (h : 0 < args.length) :
    ∀ (s : List Char) (i : Nat),
      bindsGo args s (i % args.length) = some (specBindsGo args s i) := by
  intro s
  induction s with
  | nil => intro i; rfl
  | cons ch rest ih =>
    intro i
    by_cases hch : ch = '?'
    · have hlt : i % args.length < args.length := Nat.mod_lt _ h
      have hget : args[i % args.length]? =
          some (args.getD (i % args.length) []) := by
        simp [List.getD_eq_getElem?_getD, List.getElem?_eq_getElem hlt]
      have hstep : (i % args.length + 1) % args.length = (i + 1) % args.length :=
        Nat.mod_add_mod i args.length 1
      subst hch
      simp only [bindsGo, specBindsGo, if_pos, List.get?_eq_getElem?, hget,
        hstep, ih (i + 1), Option.map_some]
    · simp only [bindsGo, specBindsGo, if_neg hch, ih i, Option.map_eq_map,
        Option.map_some]

/-- C2: for every nonempty value list, `binds` replaces the i-th `?`
(0-indexed) with `values[i mod n]` and passes every other character
through (the source loop equals the spec's description); with an empty
value list the source indexes `args[0]` out of bounds — an unchecked
precondition violation (`none`), not a recoverable error. -/
theorem binds_cyclic_spec :
    (∀ (args : List (List Char)) (s : List Char), 0 < args.length →
      binds args s = some (specBinds args s)) ∧
    binds [] "?".data = none := by
  constructor
  · intro args s h
    have := bindsGo_mod args h s 0
    rwa [Nat.zero_mod] at this
  · rfl

/-- C2 witness: the cyclic binder on a concrete string and value list. -/
theorem binds_cyclic_spec_witness :
    0 < ([("10".data : List Char), "'AAA'".data]).length ∧
    binds ["10".data, "'AAA'".data] "?f?o?".data =
      some (specBinds ["10".data, "'AAA'".data] "?f?o?".data) :=
  ⟨by decide, binds_cyclic_spec.1 ["10".data, "'AAA'".data] "?f?o?".data (by decide)⟩

/-- Scanning a colon-free chunk while inside a key just extends the key
buffer. -/
theorem bindNamesGo_scan (names : List Char → Option (List Char)) :
    ∀ (chunk : List Char), ':' ∉ chunk → ∀ (key s : List Char),
      bindNamesGo names (chunk ++ s) true key =
        bindNamesGo names s true (key ++ chunk) := by
  intro chunk
  induction chunk with
  | nil => intro _ key s; simp
  | cons c cs ih =>
    intro hmem key s
    have hc : ¬(c = ':') := by
      intro hc; exact hmem (hc ▸ List.mem_cons_self c cs)
    have hcs : ':' ∉ cs := fun h => hmem (List.mem_cons_of_mem c h)
    show bindNamesGo names (c :: (cs ++ s)) true key = _
    rw [show bindNamesGo names (c :: (cs ++ s)) true key =
      bindNamesGo names (cs ++ s) true (key ++ [c]) from by simp [bindNamesGo, hc]]
    rw [ih hcs (key ++ [c]) s, List.append_assoc]
    rfl

/-- C5: `bind_names` replaces each complete `:key:` span by the map value
when present and by the literal `NULL` when absent, emits one literal `:`
for each `::` escape, emits a literal `;` followed by the accumulated key
when the input ends inside an unterminated key, and passes other
characters through. -/
theorem bind_names_spec :
    (∀ (names : List Char → Option (List Char)) (k v rest : List Char),
      ':' ∉ k → k ≠ [] → names k = some v →
      bind_names names (':' :: (k ++ ':' :: rest)) = v ++ bind_names names rest) ∧
    (∀ (names : List Char → Option (List Char)) (k rest : List Char),
      ':' ∉ k → k ≠ [] → names k = none →
      bind_names names (':' :: (k ++ ':' :: rest)) =
        "NULL".data ++ bind_names names rest) ∧
    (∀ (names : List Char → Option (List Char)) (rest : List Char),
      bind_names names (':' :: ':' :: rest) = ':' :: bind_names names rest) ∧
    (∀ (names : List Char → Option (List Char)) (k : List Char), ':' ∉ k →
      bind_names names (':' :: k) = ';' :: k) ∧
    (∀ (names : List Char → Option (List Char)) (ch : Char) (rest : List Char),
      ch ≠ ':' → bind_names names (ch :: rest) = ch :: bind_names names rest) := by
  refine ⟨?_, ?_, ?_, ?_, ?_⟩
  · intro names k v rest hk hne hv
    show bindNamesGo names (':' :: (k ++ ':' :: rest)) false [] = _
    rw [show bindNamesGo names (':' :: (k ++ ':' :: rest)) false [] =
      bindNamesGo names (k ++ ':' :: rest) true [] from by simp [bindNamesGo]]
    rw [bindNamesGo_scan names k hk [] (':' :: rest), List.nil_append]
    simp [bindNamesGo, hne, hv, bind_names]
  · intro names k rest hk hne hv
    show bindNamesGo names (':' :: (k ++ ':' :: rest)) false [] = _
    rw [show bindNamesGo names (':' :: (k ++ ':' :: rest)) false [] =
      bindNamesGo names (k ++ ':' :: rest) true [] from by simp [bindNamesGo]]
    rw [bindNamesGo_scan names k hk [] (':' :: rest), List.nil_append]
    simp [bindNamesGo, hne, hv, bind_names]
  · intro names rest
    simp [bind_names, bindNamesGo]
  · intro names k hk
    have h1 : bindNamesGo names (':' :: k) false [] =
        bindNamesGo names k true [] := by simp [bindNamesGo]
    have h2 : bindNamesGo names (k ++ []) true [] =
        bindNamesGo names [] true ([] ++ k) := bindNamesGo_scan names k hk [] []
    rw [List.append_nil] at h2
    show bindNamesGo names (':' :: k) false [] = _
    rw [h1, h2]
    simp [bindNamesGo]
  · intro names ch rest hch
    simp [bind_names, bindNamesGo, hch]

/-- C5 witness: the five behaviors at concrete inputs with a concrete map. -/
theorem bind_names_spec_witness :
    bind_names (fun k => if k = "aaa".data then some "10".data else none)
      ":aaa:x".data = "10x".data ∧
    bind_names (fun k => if k = "aaa".data then some "10".data else none)
      ":bbb:x".data = "NULLx".data ∧
    bind_names (fun k => if k = "aaa".data then some "10".data else none)
      "::x".data = ":x".data ∧
    bind_names (fun k => if k = "aaa".data then some "10".data else none)
      ":ab".data = ";ab".data ∧
    bind_names (fun k => if k = "aaa".data then some "10".data else none)
      "yz".data = "yz".data := by
  have h1 := bind_names_spec.1
    (fun k => if k = "aaa".data then some "10".data else none)
    "aaa".data "10".data "x".data (by decide) (by decide) (by decide)
  have h2 := bind_names_spec.2.1
    (fun k => if k = "aaa".data then some "10".data else none)
    "bbb".data "x".data (by decide) (by decide) (by decide)
  have h3 := bind_names_spec.2.2.1
    (fun k => if k = "aaa".data then some "10".data else none) "x".data
  have h4 := bind_names_spec.2.2.2.1
    (fun k => if k = "aaa".data then some "10".data else none)
    "ab".data (by decide)
  have h5 := bind_names_spec.2.2.2.2
    (fun k => if k = "aaa".data then some "10".data else none)
    'y' "z".data (by decide)
  refine ⟨?_, ?_, ?_, ?_, ?_⟩
  · exact h1.trans (by decide)
  · exact h2.trans (by decide)
  · exact h3.trans (by decide)
  · exact h4
  · exact h5.trans (by decide)

/-- C6: the `Where` error policy is sticky and fail-soft.  Every failing
call (empty seed, empty current text, or empty argument, per each
operation's checks) records its specific error and leaves `text` exactly
as it was; the error field is overwritten, never accumulated (the
conclusions hold whatever error was already stored, and a concrete chain
shows the newer error replacing the older); `build()` returns the stored
error when present and the accumulated text otherwise; and after a
failing call, a later call still succeeds and mutates `text`. -/
theorem where_error_policy :
    ((Where.new "").error = some .NoWhereField ∧ (Where.new "").text = "") ∧
    (∀ w : Where, w.text = "" →
      w.in_brackets.error = some .NoWhereField ∧ w.in_brackets.text = w.text) ∧
    (∀ w : Where, w.text = "" →
      w.not.error = some .NoWhereField ∧ w.not.text = w.text) ∧
    (∀ (w : Where) (s : String), w.text = "" →
      (w.and s).error = some .NoWhereField ∧ (w.and s).text = w.text) ∧
    (∀ (w : Where) (s : String), w.text ≠ "" → s = "" →
      (w.and s).error = some (.NoWhereValue w.text) ∧ (w.and s).text = w.text) ∧
    (∀ (w : Where) (s : String), w.text = "" →
      (w.or s).error = some .NoWhereField ∧ (w.or s).text = w.text) ∧
    (∀ (w : Where) (s : String), w.text ≠ "" → s = "" →
      (w.or s).error = some (.NoWhereValue w.text) ∧ (w.or s).text = w.text) ∧
    (∀ w : Where,
      (w.eq "").error = some (.NoWhereValue w.text) ∧ (w.eq "").text = w.text) ∧
    (∀ w : Where,
      (w.ne "").error = some (.NoWhereValue w.text) ∧ (w.ne "").text = w.text) ∧
    (∀ w : Where, w.error = none → w.build = .ok w.text) ∧
    (∀ (w : Where) (e : SqlBuilderError), w.error = some e → w.build = .error e) ∧
    ((Where.new "").eq "").error = some (.NoWhereValue "") ∧
    (∀ (w : Where) (v : String), w.text ≠ "" → v ≠ "" →
      ((w.and "").or v).text = w.text ++ " OR " ++ v ∧
      ((w.and "").or v).error = some (.NoWhereValue w.text)) := by
  refine ⟨by decide, ?_, ?_, ?_, ?_, ?_, ?_, ?_, ?_, ?_, ?_, by decide, ?_⟩
  · intro w h
    simp [Where.in_brackets, h]
  · intro w h
    simp [Where.not, h]
  · intro w s h
    simp [Where.and, h]
  · intro w s hw hs
    simp [Where.and, hw, hs]
  · intro w s h
    simp [Where.or, h]
  · intro w s hw hs
    simp [Where.or, hw, hs]
  · intro w
    cases hp : w.pfx <;> simp [Where.eq, hp]
  · intro w
    cases hp : w.pfx <;> simp [Where.ne, hp]
  · intro w h
    simp [Where.build, h]
  · intro w e h
    simp [Where.build, h]
  · intro w v hw hv
    have hand : w.and "" = { w with error := some (.NoWhereValue w.text) } := by
      simp [Where.and, hw]
    rw [hand]
    constructor <;> simp [Where.or, hw, hv]

/-- C6 witness: each hypothesis-guarded part applied at a concrete
builder state. -/
theorem where_error_policy_witness :
    (Where.empty.in_brackets.error = some .NoWhereField ∧
      Where.empty.in_brackets.text = Where.empty.text) ∧
    (Where.empty.not.error = some .NoWhereField ∧
      Where.empty.not.text = Where.empty.text) ∧
    ((Where.empty.and "x").error = some .NoWhereField ∧
      (Where.empty.and "x").text = Where.empty.text) ∧
    (((Where.new "a").and "").error = some (.NoWhereValue (Where.new "a").text) ∧
      ((Where.new "a").and "").text = (Where.new "a").text) ∧
    ((Where.empty.or "x").error = some .NoWhereField ∧
      (Where.empty.or "x").text = Where.empty.text) ∧
    (((Where.new "a").or "").error = some (.NoWhereValue (Where.new "a").text) ∧
      ((Where.new "a").or "").text = (Where.new "a").text) ∧
    (Where.new "a").build = .ok (Where.new "a").text ∧
    (Where.new "").build = .error .NoWhereField ∧
    (((Where.new "abc").and "").or "x").text = (Where.new "abc").text ++ " OR " ++ "x" ∧
    (((Where.new "abc").and "").or "x").error =
      some (.NoWhereValue (Where.new "abc").text) := by
  have h2 := where_error_policy.2.1 Where.empty rfl
  have h3 := where_error_policy.2.2.1 Where.empty rfl
  have h4 := where_error_policy.2.2.2.1 Where.empty "x" rfl
  have h5 := where_error_policy.2.2.2.2.1 (Where.new "a") "" (by decide) rfl
  have h6 := where_error_policy.2.2.2.2.2.1 Where.empty "x" rfl
  have h7 := where_error_policy.2.2.2.2.2.2.1 (Where.new "a") "" (by decide) rfl
  have h10 := where_error_policy.2.2.2.2.2.2.2.2.2.1 (Where.new "a") (by decide)
  have h11 := where_error_policy.2.2.2.2.2.2.2.2.2.2.1 (Where.new "")
    .NoWhereField (by decide)
  have h13 := where_error_policy.2.2.2.2.2.2.2.2.2.2.2.2
    (Where.new "abc") "x" (by decide) (by decide)
  exact ⟨h2, h3, h4, h5, h6, h7, h10, h11, h13.1, h13.2⟩

/-- The wrapped `num - 1` bounds check of the release build agrees with
the spec's `n > 0` guard whenever the accumulator and the value-list
length are genuine `usize` values. -/
theorem wrapSub_lt_iff (num L : Nat) (hnum : num < USIZE) (hL : L < USIZE) :
    ((num + (USIZE - 1)) % USIZE < L) ↔ (0 < num ∧ num - 1 < L) := by
  have hU : 0 < USIZE := by norm_num [USIZE]
  rcases num with _ | k
  · have h0 : (0 + (USIZE - 1)) % USIZE = USIZE - 1 := by
      rw [Nat.zero_add, Nat.mod_eq_of_lt (by omega)]
    rw [h0]
    omega
  · have h1 : (k + 1 + (USIZE - 1)) % USIZE = k := by
      have h2 : k + 1 + (USIZE - 1) = k + USIZE := by omega
      rw [h2, Nat.add_mod_right, Nat.mod_eq_of_lt (by omega)]
    rw [h1]
    omega

/-- The wrapped index equals `num - 1` when `0 < num < USIZE`. -/
theorem wrapSub_eq (num : Nat) (h0 : 0 < num) (hnum : num < USIZE) :
    (num + (USIZE - 1)) % USIZE = num - 1 := by
  rcases num with _ | k
  · omega
  · have h2 : k + 1 + (USIZE - 1) = k + USIZE := by
      have : 0 < USIZE := by norm_num [USIZE]
      omega
    rw [h2, Nat.add_mod_right, Nat.mod_eq_of_lt (by omega)]
    omega

/-- The source loop of `bind_nums` computes exactly the spec's two-state
machine, in both states, for `usize`-sized accumulators and value lists. -/
theorem bindNumsGo_eq_spec (args : List (List Char)) (hlen : args.length < USIZE) :
    ∀ s : List Char,
      (∀ num, num < USIZE →
        bindNumsGo args s true num = specBindNumsGo args s (.awaiting num)) ∧
      bindNumsGo args s false 0 = specBindNumsGo args s .normal := by
  intro s
  induction s with
  | nil =>
    constructor
    · intro num hnum
      by_cases h1 : 0 < num <;> by_cases h2 : num - 1 < args.length <;>
        simp [bindNumsGo, specBindNumsGo, h1, h2]
    · simp [bindNumsGo, specBindNumsGo]
  | cons ch rest ih =>
    obtain ⟨ihT, ihF⟩ := ih
    have hU : 0 < USIZE := by norm_num [USIZE]
    constructor
    · intro num hnum
      by_cases hch : ch = '$'
      · by_cases h1 : 0 < num
        · simp [bindNumsGo, specBindNumsGo, hch, h1, ihT 0 hU]
        · have hz : num = 0 := by omega
          subst hz
          simp [bindNumsGo, specBindNumsGo, hch, ihF]
      · cases htd : toDigit ch with
        | some d =>
          have hm : (num * 10 + d) % USIZE < USIZE := Nat.mod_lt _ hU
          simp [bindNumsGo, specBindNumsGo, hch, htd, ihT _ hm]
        | none =>
          have hiff := wrapSub_lt_iff num args.length hnum hlen
          by_cases h1 : 0 < num
          · have heq := wrapSub_eq num h1 hnum
            simp only [bindNumsGo, specBindNumsGo, if_neg hch, htd, heq, ihF]
            by_cases h2 : num - 1 < args.length <;> simp [h1, h2]
          · have hz : num = 0 := by omega
            subst hz
            have hno : ¬((0 + (USIZE - 1)) % USIZE < args.length) := by
              rw [hiff]; omega
            simp [bindNumsGo, specBindNumsGo, hch, htd, hno, ihF]
            exact fun h2 => absurd h2 (by omega)
    · by_cases hch : ch = '$'
      · simp [bindNumsGo, specBindNumsGo, hch, ihT 0 hU]
      · simp [bindNumsGo, specBindNumsGo, hch, ihF]

/-- C1: `bind_nums` implements the spec's single-pass two-state machine on
every input string and every `usize`-sized value list — back-to-back
placeholders are both replaced, `$$` emits one literal `$`, out-of-range
indices emit nothing, and a trailing unterminated `$N` emits
`values[N-1]` when in range; in particular the reference scenario
`$1f$02o$$o$3$4` with values `10`, `'AAA'`, `TRUE` yields exactly
`10f'AAA'o$oTRUE`. -/
theorem bind_nums_refines_spec :
    (∀ (args : List (List Char)) (s : List Char), args.length < USIZE →
      bind_nums args s = specBindNums args s) ∧
    bind_nums ["10".data, "'AAA'".data, "TRUE".data] "$1f$02o$$o$3$4".data =
      "10f'AAA'o$oTRUE".data := by
  constructor
  · intro args s h
    exact (bindNumsGo_eq_spec args h s).2
  · decide

/-- C1 witness: the refinement applied to the reference scenario's value
list and input string. -/
theorem bind_nums_refines_spec_witness :
    (([("10".data : List Char), "'AAA'".data, "TRUE".data]).length < USIZE) ∧
    bind_nums ["10".data, "'AAA'".data, "TRUE".data] "$1f$02o$$o$3$4".data =
      specBindNums ["10".data, "'AAA'".data, "TRUE".data] "$1f$02o$$o$3$4".data :=
  ⟨by decide, bind_nums_refines_spec.1 ["10".data, "'AAA'".data, "TRUE".data]
    "$1f$02o$$o$3$4".data (by decide)⟩

/-- C4: on a `$` followed by a non-digit (state AwaitingDigits(0)), the
spec emits no value, emits the character and continues — and the release
build observably does so — but the path is not total as claimed: the
source computes `num - 1` with `num = 0` (bind.rs line 504) without the
spec's `n > 0` guard, a `usize` underflow that panics in an
overflow-checked build (`none` below); the release build reaches the
spec's behavior only because the wrapped index `2^64 - 1` fails the
bounds check. -/
theorem bind_nums_awaiting_zero_underflow :
    specBindNums ["10".data] "$x".data = "x".data ∧
    bind_nums ["10".data] "$x".data = "x".data ∧
    bindNumsChecked ["10".data] "$x".data = none := by
  exact ⟨by decide, by decide, by decide⟩

/-- C9 witness: the WHERE rendering and `or_where` parts applied at
concrete builders. -/
theorem make_wheres_rendering_witness :
    SqlBuilder.make_wheres ["a"] = " WHERE " ++ "a" ∧
    ((SqlBuilder.select_from "t").or_where "c").wheres = ["c"] ∧
    (((SqlBuilder.select_from "t").and_where "x").or_where "c").wheres =
      ((SqlBuilder.select_from "t").and_where "x").wheres.dropLast ++
        ["x" ++ " OR " ++ "c"] ∧
    ((((SqlBuilder.select_from "t").and_where "p").and_where "q").or_where "r").wheres =
      ["p", "q" ++ " OR " ++ "r"] ∧
    SqlBuilder.make_wheres
      (((((SqlBuilder.select_from "t").and_where "p").and_where "q").or_where "r").wheres) =
      " WHERE (" ++ "p" ++ ") AND (" ++ "q" ++ " OR " ++ "r" ++ ")" := by
  have h2 := make_wheres_rendering.2.1 "a"
  have h4 := make_wheres_rendering.2.2.2.1 (SqlBuilder.select_from "t") "c" rfl
  have h5 := make_wheres_rendering.2.2.2.2.1
    ((SqlBuilder.select_from "t").and_where "x") "c" "x" rfl
  have h6 := make_wheres_rendering.2.2.2.2.2
    (SqlBuilder.select_from "t") "p" "q" "r" rfl
  exact ⟨h2, h4, h5, h6.1, h6.2⟩

/-- Unpacking the `goodRep` side condition. -/
theorem goodRep_spec (a : List Char) (h : goodRep a = true) :
    a ≠ [] ∧ '$' ∉ a ∧ ∀ c, a.head? = some c → c.isDigit = false := by
  cases a with
  | nil => simp [goodRep] at h
  | cons c cs =>
    simp only [goodRep, List.isEmpty_cons, Bool.not_false, Bool.true_and,
      Bool.and_eq_true, Bool.not_eq_true'] at h
    refine ⟨by simp, ?_, ?_⟩
    · intro hmem
      have helem := List.elem_eq_true_of_mem hmem
      have hcon : (c :: cs).contains '$' = true := helem
      rw [h.1] at hcon
      exact Bool.false_ne_true hcon
    · intro x hx
      rw [List.head?_cons, Option.some_inj] at hx
      subst hx
      exact h.2

/-- Every character produced by `decCharsCore` on an all-digit
accumulator is a digit. -/
theorem decCharsCore_digits :
    ∀ (fuel n : Nat) (acc : List Char), (∀ c ∈ acc, c.isDigit = true) →
      ∀ c ∈ decCharsCore fuel n acc, c.isDigit = true := by
  intro fuel
  induction fuel with
  | zero => intro n acc hacc; exact hacc
  | succ fuel ih =>
    intro n acc hacc
    have hdig : (Char.ofNat (48 + n % 10)).isDigit = true := by
      have h10 : n % 10 < 10 := Nat.mod_lt _ (by norm_num)
      revert h10
      generalize n % 10 = r
      intro h10
      interval_cases r <;> decide
    have hacc' : ∀ c ∈ Char.ofNat (48 + n % 10) :: acc, c.isDigit = true := by
      intro c hc
      rcases List.mem_cons.mp hc with hc | hc
      · rw [hc]; exact hdig
      · exact hacc c hc
    by_cases hn : n < 10
    · simpa [decCharsCore, hn] using hacc'
    · simpa [decCharsCore, hn] using ih (n / 10) _ hacc'

/-- Every character of the decimal rendering is a digit. -/
theorem decChars_digits (n : Nat) : ∀ c ∈ decChars n, c.isDigit = true :=
  decCharsCore_digits (n + 1) n [] (by simp)

/-- `$` is not a digit, so it does not occur in a decimal rendering. -/
theorem dollar_not_mem_decChars (n : Nat) : '$' ∉ decChars n := by
  intro hmem
  have := decChars_digits n '$' hmem
  simp [Char.isDigit] at this

/-- Copying through a `$`-free block: no pattern occurrence can start
inside it. -/
theorem replaceList_append_of_not_mem (ps rep : List Char) :
    ∀ (xs t : List Char), '$' ∉ xs →
      replaceList '$' ps rep (xs ++ t) = xs ++ replaceList '$' ps rep t := by
  intro xs
  induction xs with
  | nil => intro t _; simp
  | cons c cs ih =>
    intro t hmem
    have hc : ¬('$' = c) := by
      intro hc; exact hmem (hc ▸ List.mem_cons_self c cs)
    have hcs : '$' ∉ cs := fun h => hmem (List.mem_cons_of_mem c h)
    have hpre : ('$' :: ps).isPrefixOf (c :: (cs ++ t)) = false := by
      simp [List.isPrefixOf, hc]
    simp only [List.cons_append, replaceList, hpre, Bool.false_eq_true,
      if_false, ih t hcs]

/-- Consuming a pattern occurrence at the head. -/
theorem replaceList_consume (ps rep t : List Char) :
    replaceList '$' ps rep (('$' :: ps) ++ t) = rep ++ replaceList '$' ps rep t := by
  have hpre : ('$' :: ps).isPrefixOf ('$' :: (ps ++ t)) = true := by
    exact List.isPrefixOf_iff_prefix.mpr (List.prefix_append _ _)
  simp only [List.cons_append, replaceList, hpre, if_true, List.drop_left]

/-- A string with no occurrence of the pattern is left unchanged. -/
theorem replaceList_of_not_infix (p : Char) (ps rep : List Char) :
    ∀ s : List Char, ¬((p :: ps) <:+: s) → replaceList p ps rep s = s := by
  intro s
  induction s with
  | nil => intro _; simp [replaceList]
  | cons c cs ih =>
    intro hinf
    have hpre : (p :: ps).isPrefixOf (c :: cs) = false := by
      rw [Bool.eq_false_iff]
      intro hp
      exact hinf (List.infix_cons_iff.mpr
        (Or.inl (List.isPrefixOf_iff_prefix.mp hp)))
    have hcs : ¬((p :: ps) <:+: cs) := fun h =>
      hinf (List.infix_cons_iff.mpr (Or.inr h))
    simp only [replaceList, hpre, Bool.false_eq_true, if_false, ih hcs]

/-- Replacement does not create an all-digit prefix: a digit string that
is a prefix of the replaced text was already a prefix of the original,
provided the replacement value is nonempty and starts with a non-digit. -/
theorem prefix_replaceList_digits (ps a : List Char)
    (ha₁ : a ≠ []) (ha₂ : ∀ c, a.head? = some c → c.isDigit = false) :
    ∀ (s d : List Char), (∀ c ∈ d, c.isDigit = true) →
      d <+: replaceList '$' ps a s → d <+: s := by
  intro s
  induction s with
  | nil =>
    intro d hd hpre
    rw [show replaceList '$' ps a [] = [] from by simp [replaceList]] at hpre
    exact hpre
  | cons c cs ih =>
    intro d hd hpre
    by_cases hp : ('$' :: ps).isPrefixOf (c :: cs) = true
    · rw [show replaceList '$' ps a (c :: cs) =
        a ++ replaceList '$' ps a (cs.drop ps.length) from by
          simp [replaceList, hp]] at hpre
      cases d with
      | nil => exact List.nil_prefix
      | cons e d' =>
        obtain ⟨a0, a', rfl⟩ : ∃ a0 a', a = a0 :: a' := by
          cases a with
          | nil => exact absurd rfl ha₁
          | cons x xs => exact ⟨x, xs, rfl⟩
        rw [List.cons_append] at hpre
        have he := (List.cons_prefix_cons.mp hpre).1
        have hea : e.isDigit = true := hd e (List.mem_cons_self _ _)
        have ha0 : a0.isDigit = false := ha₂ a0 (by simp)
        rw [he, ha0] at hea
        exact absurd hea (by simp)
    · rw [Bool.not_eq_true] at hp
      rw [show replaceList '$' ps a (c :: cs) =
        c :: replaceList '$' ps a cs from by simp [replaceList, hp]] at hpre
      cases d with
      | nil => exact List.nil_prefix
      | cons e d' =>
        obtain ⟨he, hd'⟩ := List.cons_prefix_cons.mp hpre
        exact List.cons_prefix_cons.mpr
          ⟨he, ih d' (fun x hx => hd x (List.mem_cons_of_mem _ hx)) hd'⟩

/-- When one pattern occurrence sits at the head of the string and the
other pattern is not a prefix there, replacing in either order consumes
the occurrence and passes the other replacement through it. -/
theorem replace_comm_prefix_case (d1 d2 a b : List Char)
    (hd1 : ∀ c ∈ d1, c.isDigit = true) (ha : '$' ∉ a) (t : List Char)
    (hp2 : ¬(('$' :: d2) <+: (('$' :: d1) ++ t))) :
    replaceList '$' d2 b (replaceList '$' d1 a (('$' :: d1) ++ t)) =
      a ++ replaceList '$' d2 b (replaceList '$' d1 a t) ∧
    replaceList '$' d1 a (replaceList '$' d2 b (('$' :: d1) ++ t)) =
      a ++ replaceList '$' d1 a (replaceList '$' d2 b t) := by
  have hd1' : '$' ∉ d1 := by
    intro h
    have := hd1 '$' h
    simp [Char.isDigit] at this
  constructor
  · rw [replaceList_consume d1 a t, replaceList_append_of_not_mem d2 b a _ ha]
  · have hpre : ('$' :: d2).isPrefixOf ('$' :: (d1 ++ t)) = false := by
      rw [Bool.eq_false_iff]
      intro hx
      exact hp2 (List.isPrefixOf_iff_prefix.mp hx)
    have hstep : replaceList '$' d2 b (('$' :: d1) ++ t) =
        ('$' :: d1) ++ replaceList '$' d2 b t := by
      show replaceList '$' d2 b ('$' :: (d1 ++ t)) = _
      rw [show replaceList '$' d2 b ('$' :: (d1 ++ t)) =
        '$' :: replaceList '$' d2 b (d1 ++ t) from by simp [replaceList, hpre]]
      rw [replaceList_append_of_not_mem d2 b d1 t hd1']
      rfl
    rw [hstep, replaceList_consume d1 a _]

/-- Order-independence of two `$`-pattern replacements whose digit parts
are not prefixes of one another and whose values satisfy `goodRep`,
by strong induction on the string length. -/
theorem replaceList_comm_aux (d1 d2 a b : List Char)
    (hd1 : ∀ c ∈ d1, c.isDigit = true) (hd2 : ∀ c ∈ d2, c.isDigit = true)
    (h12 : ¬(d1 <+: d2)) (h21 : ¬(d2 <+: d1))
    (ha : goodRep a = true) (hb : goodRep b = true) :
    ∀ (N : Nat) (s : List Char), s.length ≤ N →
      replaceList '$' d2 b (replaceList '$' d1 a s) =
        replaceList '$' d1 a (replaceList '$' d2 b s) := by
  obtain ⟨ha₁, ha₂, ha₃⟩ := goodRep_spec a ha
  obtain ⟨hb₁, hb₂, hb₃⟩ := goodRep_spec b hb
  intro N
  induction N with
  | zero =>
    intro s hs
    have hnil : s = [] := List.length_eq_zero.mp (Nat.le_zero.mp hs)
    subst hnil
    simp [replaceList]
  | succ N ihN =>
    intro s hs
    cases s with
    | nil => simp [replaceList]
    | cons c cs =>
      have hs' : cs.length + 1 ≤ N + 1 := by simpa using hs
      by_cases hp1 : ('$' :: d1) <+: (c :: cs)
      · obtain ⟨t, ht⟩ := hp1
        have hp2 : ¬(('$' :: d2) <+: (c :: cs)) := by
          intro hp2
          have hp1' : ('$' :: d1) <+: (c :: cs) := ⟨t, ht⟩
          rcases Nat.le_total ('$' :: d1).length ('$' :: d2).length with hle | hle
          · exact h12 (List.cons_prefix_cons.mp
              (List.prefix_of_prefix_length_le hp1' hp2 hle)).2
          · exact h21 (List.cons_prefix_cons.mp
              (List.prefix_of_prefix_length_le hp2 hp1' hle)).2
        rw [← ht]
        rw [← ht] at hp2
        have hlen : t.length ≤ N := by
          have hl := congrArg List.length ht
          simp at hl
          omega
        obtain ⟨e1, e2⟩ := replace_comm_prefix_case d1 d2 a b hd1 ha₂ t hp2
        rw [e1, e2, ihN t hlen]
      · by_cases hp2 : ('$' :: d2) <+: (c :: cs)
        · obtain ⟨t, ht⟩ := hp2
          rw [← ht]
          rw [← ht] at hp1
          have hlen : t.length ≤ N := by
            have hl := congrArg List.length ht
            simp at hl
            omega
          obtain ⟨e1, e2⟩ := replace_comm_prefix_case d2 d1 b a hd2 hb₂ t hp1
          rw [e1, e2, ihN t hlen]
        · have hlen : cs.length ≤ N := by omega
          have s1 : replaceList '$' d1 a (c :: cs) =
              c :: replaceList '$' d1 a cs := by
            have hx : ('$' :: d1).isPrefixOf (c :: cs) = false := by
              rw [Bool.eq_false_iff]
              intro hy
              exact hp1 (List.isPrefixOf_iff_prefix.mp hy)
            simp [replaceList, hx]
          have s2 : replaceList '$' d2 b (c :: cs) =
              c :: replaceList '$' d2 b cs := by
            have hx : ('$' :: d2).isPrefixOf (c :: cs) = false := by
              rw [Bool.eq_false_iff]
              intro hy
              exact hp2 (List.isPrefixOf_iff_prefix.mp hy)
            simp [replaceList, hx]
          have s3 : replaceList '$' d2 b (c :: replaceList '$' d1 a cs) =
              c :: replaceList '$' d2 b (replaceList '$' d1 a cs) := by
            have hnp : ('$' :: d2).isPrefixOf
                (c :: replaceList '$' d1 a cs) = false := by
              rw [Bool.eq_false_iff]
              intro hx
              have hx' := List.isPrefixOf_iff_prefix.mp hx
              have hc := (List.cons_prefix_cons.mp hx').1
              have hdp := (List.cons_prefix_cons.mp hx').2
              have hin : d2 <+: cs :=
                prefix_replaceList_digits d1 a ha₁ ha₃ cs d2 hd2 hdp
              exact hp2 (List.cons_prefix_cons.mpr ⟨hc, hin⟩)
            simp [replaceList, hnp]
          have s4 : replaceList '$' d1 a (c :: replaceList '$' d2 b cs) =
              c :: replaceList '$' d1 a (replaceList '$' d2 b cs) := by
            have hnp : ('$' :: d1).isPrefixOf
                (c :: replaceList '$' d2 b cs) = false := by
              rw [Bool.eq_false_iff]
              intro hx
              have hx' := List.isPrefixOf_iff_prefix.mp hx
              have hc := (List.cons_prefix_cons.mp hx').1
              have hdp := (List.cons_prefix_cons.mp hx').2
              have hin : d1 <+: cs :=
                prefix_replaceList_digits d2 b hb₁ hb₃ cs d1 hd1 hdp
              exact hp1 (List.cons_prefix_cons.mpr ⟨hc, hin⟩)
            simp [replaceList, hnp]
          rw [s1, s2, s3, s4, ihN cs hlen]

/-- Replacing in the empty string yields the empty string. -/
theorem replaceList_nil (p : Char) (ps rep : List Char) :
    replaceList p ps rep [] = [] := by
  simp [replaceList]

/-- C3 counterexample: `bind_num` calls for the distinct numbers 1 and 12
do not commute on `$12` — binding 1 first consumes the `$1` inside `$12`
(`X2`), while binding 12 first yields `Y`. -/
theorem bind_num_not_order_independent :
    bind_num 12 "Y".data (bind_num 1 "X".data "$12".data) ≠
      bind_num 1 "X".data (bind_num 12 "Y".data "$12".data) := by
  have e1 : decChars 1 = "1".data := by decide
  have e12 : decChars 12 = "12".data := by decide
  have h1 : bind_num 1 "X".data "$12".data = "X2".data := by
    show replaceList '$' (decChars 1) "X".data "$12".data = _
    rw [e1, show ("$12".data : List Char) = ('$' :: "1".data) ++ "2".data from rfl,
      replaceList_consume, replaceList_of_not_infix _ _ _ _ (by decide)]
    decide
  have h2 : bind_num 12 "Y".data "X2".data = "X2".data := by
    show replaceList '$' (decChars 12) "Y".data "X2".data = _
    rw [e12]
    exact replaceList_of_not_infix _ _ _ _ (by decide)
  have h3 : bind_num 12 "Y".data "$12".data = "Y".data := by
    show replaceList '$' (decChars 12) "Y".data "$12".data = _
    rw [e12, show ("$12".data : List Char) = ('$' :: "12".data) ++ [] from rfl,
      replaceList_consume, replaceList_nil, List.append_nil]
  have h4 : bind_num 1 "X".data "Y".data = "Y".data := by
    show replaceList '$' (decChars 1) "X".data "Y".data = _
    rw [e1]
    exact replaceList_of_not_infix _ _ _ _ (by decide)
  rw [h1, h2, h3, h4]
  decide

/-- C3 (amended): `bind_num` calls for two numbers commute provided
neither number's decimal representation is a prefix of the other's and
each rendered value is nonempty, contains no `$`, and does not start
with a digit (the counterexamples force each side condition: `$12` with
1 and 12; value `$2` for `$1`; value `2` for `$$1`; empty value for
`$$31`); and `bind_num` for a number whose `$n` text does not occur in
the string leaves the string — including every unrelated placeholder —
unchanged. -/
theorem bind_num_comm_amended :
    (∀ (n m : Nat) (a b s : List Char),
      (decChars n).isPrefixOf (decChars m) = false →
      (decChars m).isPrefixOf (decChars n) = false →
      goodRep a = true → goodRep b = true →
      bind_num m b (bind_num n a s) = bind_num n a (bind_num m b s)) ∧
    (∀ (k : Nat) (v s : List Char), ¬(('$' :: decChars k) <:+: s) →
      bind_num k v s = s) := by
  constructor
  · intro n m a b s h1 h2 hga hgb
    have h12 : ¬(decChars n <+: decChars m) := by
      intro hp
      have hx := List.isPrefixOf_iff_prefix.mpr hp
      rw [h1] at hx
      exact Bool.false_ne_true hx
    have h21 : ¬(decChars m <+: decChars n) := by
      intro hp
      have hx := List.isPrefixOf_iff_prefix.mpr hp
      rw [h2] at hx
      exact Bool.false_ne_true hx
    exact replaceList_comm_aux (decChars n) (decChars m) a b
      (decChars_digits n) (decChars_digits m) h12 h21 hga hgb s.length s le_rfl
  · intro k v s h
    exact replaceList_of_not_infix '$' (decChars k) v s h

/-- C3 witness: commutation of `bind_num` for 1 and 2 on `$1$2` with
values `X` and `Y`, and invariance under binding the absent number 3. -/
theorem bind_num_comm_amended_witness :
    ((decChars 1).isPrefixOf (decChars 2) = false ∧
      (decChars 2).isPrefixOf (decChars 1) = false ∧
      goodRep "X".data = true ∧ goodRep "Y".data = true ∧
      bind_num 2 "Y".data (bind_num 1 "X".data "$1$2".data) =
        bind_num 1 "X".data (bind_num 2 "Y".data "$1$2".data)) ∧
    (¬(('$' :: decChars 3) <:+: "ab".data) ∧
      bind_num 3 "Z".data "ab".data = "ab".data) :=
  ⟨⟨by decide, by decide, by decide, by decide,
    bind_num_comm_amended.1 1 2 "X".data "Y".data "$1$2".data
      (by decide) (by decide) (by decide) (by decide)⟩,
   ⟨by decide, bind_num_comm_amended.2 3 "Z".data "ab".data (by decide)⟩⟩

end SqlBuilderVerif
